import Mathlib

/-
Verification of the wiki extraction pipeline (agent_for_unit4/wiki.py) and the
shelve-backed key-value store (agent_for_unit4/db.py, agent_for_unit4/tools.py).

The HTML document handled by BeautifulSoup is embedded as a tree of elements,
each with a tag name, a list of CSS classes, its own text and a list of child
elements.  Tree walks mirror the BeautifulSoup operations used by the source:
get_text, find_all over all descendants in pre-order, find_all over direct
children, decompose and replace_with.  The pandas read_html call is an external
library and is passed in as a parameter of type HNode → Option Grid: some grid
on success, none when parsing raises or returns no dataframe.
-/

/-- Whitespace test matching the characters stripped by the Python str.strip
used on extracted texts (ASCII whitespace). -/
def pySpace (c : Char) : Bool :=
  c == ' ' || c == '\t' || c == '\n' || c == '\r' || c == '\x0b' || c == '\x0c'

/-- Python str.strip: remove leading and trailing whitespace. -/
def pyStrip (s : String) : String :=
  String.mk (((s.data.dropWhile pySpace).reverse.dropWhile pySpace).reverse)

/-- Check that the first string is a prefix of the second (computable on the
character lists, used for the shelve glob pattern db_name followed by star). -/
def strStartsWith (pre s : String) : Bool :=
  List.isPrefixOf pre.data s.data

/-- Helper of strContainsSub: needle occurs somewhere in the haystack list. -/
def subOccurs (nd : List Char) : List Char → Bool
  | [] => nd.isEmpty
  | c :: cs => List.isPrefixOf nd (c :: cs) || subOccurs nd cs

/-- Python substring test needle in hay, as used by the infobox class matcher
lambda c: c and "infobox" in c. -/
def strContainsSub (needle hay : String) : Bool :=
  subOccurs needle.data hay.data

/-- Concatenate n copies of a string (models Python string repetition). -/
def repeatStr (n : Nat) (s : String) : String :=
  String.join (List.replicate n s)

/-- Table key string: f"table_{k}". -/
def tableName (k : Nat) : String :=
  "table_" ++ toString k

/-- Placeholder token for a table key, f"\x7b\x7b{table_id}\x7d\x7d", i.e. the
key wrapped in double braces. -/
def placeholderOf (id : String) : String :=
  "\x7b\x7b" ++ id ++ "\x7d\x7d"

/-- An HTML element: tag name, class attribute values, directly contained text
and child elements.  This is the shallow embedding of the BeautifulSoup tag
tree that get_wiki_content walks. -/
inductive HNode : Type where
  | mk (name : String) (classes : List String) (text : String) (children : List HNode)

/-- Tag name of an element. -/
def HNode.name : HNode → String
  | .mk n _ _ _ => n

/-- Class attribute values of an element. -/
def HNode.classes : HNode → List String
  | .mk _ cl _ _ => cl

/-- Text directly contained in an element (not inside a child element). -/
def HNode.text : HNode → String
  | .mk _ _ t _ => t

/-- Child elements of an element. -/
def HNode.children : HNode → List HNode
  | .mk _ _ _ cs => cs

mutual

/-- BeautifulSoup get_text of one element: its own text followed by the text
of all descendants, in document order. -/
def getTextN : HNode → String
  | .mk _ _ t cs => t ++ getTextL cs

/-- BeautifulSoup get_text over a list of sibling elements. -/
def getTextL : List HNode → String
  | [] => ""
  | c :: cs => getTextN c ++ getTextL cs

end

mutual

/-- BeautifulSoup find_all over a forest: all elements satisfying the
predicate, in pre-order (document order), descending into every element. -/
def findAllNodes (p : HNode → Bool) : List HNode → List HNode
  | [] => []
  | n :: ns => findInNode p n ++ findAllNodes p ns

/-- BeautifulSoup find_all restricted to one element and its descendants. -/
def findInNode (p : HNode → Bool) : HNode → List HNode
  | .mk nm cl t cs =>
      (if p (.mk nm cl t cs) then [.mk nm cl t cs] else []) ++ findAllNodes p cs

end

/-- Matcher for soup.find_all("table", class_=lambda c: c and "infobox" in c):
a table element one of whose class values contains "infobox" as a substring. -/
def isInfoboxTable (n : HNode) : Bool :=
  n.name == "table" && n.classes.any (fun c => strContainsSub "infobox" c)

/-- Matcher for soup.find_all("table", class_="wikitable"): a table element
with "wikitable" among its class values. -/
def isWikitableTable (n : HNode) : Bool :=
  n.name == "table" && n.classes.contains "wikitable"

/-- A parsed table grid (rows of cell texts), the embedding of the pandas
DataFrame produced by pd.read_html. -/
abbrev Grid := List (List String)

/-- The table_ids accumulation loops: walk a list of discovered tables and
pair each with f"table_{table_index}", table_index counting up from k. -/
def assignIds (k : Nat) : List HNode → List (String × HNode)
  | [] => []
  | t :: ts => (tableName k, t) :: assignIds (k + 1) ts

/-- All targeted tables of the document with their assigned ids: first every
infobox table in document order, then every wikitable in document order, ids
counted from 1 across the concatenation (wiki.py lines 98-113). -/
def tableIds (doc : List HNode) : List (String × HNode) :=
  assignIds 1 (findAllNodes isInfoboxTable doc ++ findAllNodes isWikitableTable doc)

/-- The tables_dict construction (wiki.py lines 115-123): try to parse each
discovered table independently; on failure (or an empty dataframe list) skip
only that table, keeping its id consumed. -/
def tablesDictOf (pt : HNode → Option Grid) (doc : List HNode) : List (String × Grid) :=
  (tableIds doc).filterMap (fun e => (pt e.2).map (fun g => (e.1, g)))

/-- The paragraph element inserted by replace_with: a new p tag whose entire
string is the placeholder token of the table id. -/
def placeholderPara (id : String) : HNode :=
  .mk "p" [] (placeholderOf id) []

/-- Ids recorded by the substitution loop for list entries whose element was
already detached from the working document (a targeted table nested inside a
previously replaced one): the loop body still records the placeholder for each
id present in tables_dict, but replace_with no longer changes the document.
The first argument counts the remaining detached entries. -/
def detachedIds (keys : List String) : Nat → Nat → List String
  | _, 0 => []
  | k, m + 1 =>
      (if keys.contains (tableName k) then [tableName k] else []) ++
        detachedIds keys (k + 1) m

mutual

/-- Placeholder substitution loop (wiki.py lines 125-147) over a forest.  The
enumeration index k follows the pre-ordered find_all list computed on the
working document; keys are the keys of tables_dict.  Returns the index after
the walk, the ids recorded in table_placeholders, and the rewritten forest. -/
def substL (p : HNode → Bool) (keys : List String) :
    Nat → List HNode → Nat × List String × List HNode
  | k, [] => (k, [], [])
  | k, n :: ns =>
      let r1 := substN p keys k n
      let r2 := substL p keys r1.1 ns
      (r2.1, r1.2.1 ++ r2.2.1, r1.2.2 ++ r2.2.2)

/-- Placeholder substitution at one element.  A targeted table with its id in
tables_dict is replaced by the placeholder paragraph (descendant list entries
become detached: their indices and placeholder records are still consumed); a
targeted table whose id is absent keeps its element and the walk continues
inside it; any other element keeps its name, classes and text and the walk
continues inside it. -/
def substN (p : HNode → Bool) (keys : List String) :
    Nat → HNode → Nat × List String × List HNode
  | k, .mk nm cl t cs =>
      if p (.mk nm cl t cs) then
        if keys.contains (tableName k) then
          (k + 1 + (findAllNodes p cs).length,
           tableName k :: detachedIds keys (k + 1) (findAllNodes p cs).length,
           [placeholderPara (tableName k)])
        else
          let cres := substL p keys (k + 1) cs
          (cres.1, cres.2.1, [.mk nm cl t cres.2.2])
      else
        let cres := substL p keys k cs
        (cres.1, cres.2.1, [.mk nm cl t cres.2.2])

end

/-- The names passed to find_all for decoration removal (wiki.py line 150).
find_all with a list of strings matches tag names, so only sup elements can
ever match: no tag is literally named "div.hatnote", "div.navbox" or
"span.mw-editsection". -/
def decorationNames : List String :=
  ["sup", "div.hatnote", "div.navbox", "span.mw-editsection"]

mutual

/-- Decoration removal (element.decompose loop) over a forest: drop every
element whose tag name is in the list, keeping everything else. -/
def stripNodesL (bad : List String) : List HNode → List HNode
  | [] => []
  | n :: ns => stripNodeN bad n ++ stripNodesL bad ns

/-- Decoration removal at one element. -/
def stripNodeN (bad : List String) : HNode → List HNode
  | .mk nm cl t cs =>
      if bad.contains nm then [] else [.mk nm cl t (stripNodesL bad cs)]

end

/-- Text of a list item excluding nested lists: the concatenation of the li
contents whose tag name is not ul or ol, stripped (wiki.py lines 19-24). -/
def liOwnText (li : HNode) : String :=
  pyStrip (li.text ++ getTextL (li.children.filter (fun c => !(["ul", "ol"].contains c.name))))

mutual

/-- The loop of process_list_element over li children found with
find_all("li", recursive=False): i is the enumerate index (counted only over
li elements, matching enumerate over the filtered find_all list). -/
def processLis (ordered : Bool) (indent i : Nat) : List HNode → List String
  | [] => []
  | n :: rest =>
      processLi ordered indent i n ++
        processLis ordered indent (if n.name == "li" then i + 1 else i) rest

/-- One iteration of the li loop: emit the item line when its text is
non-empty, then process each directly nested list at indent + 1. -/
def processLi (ordered : Bool) (indent i : Nat) : HNode → List String
  | .mk nm cl t cs =>
      if nm == "li" then
        let itemText := liOwnText (.mk nm cl t cs)
        let pfx := repeatStr indent "  " ++
          (if ordered then toString (i + 1) ++ ". " else "* ")
        (if itemText == "" then [] else [pfx ++ itemText]) ++
          processNestedLists indent cs
      else []

/-- The nested-list loop over li.find_all(["ul", "ol"], recursive=False):
process each directly nested list and keep its rendering when non-empty. -/
def processNestedLists (indent : Nat) : List HNode → List String
  | [] => []
  | c :: rest => processNestedOne indent c ++ processNestedLists indent rest

/-- Recursive call of process_list_element on one directly nested ul or ol at
indent + 1 (other child elements are not list elements and contribute
nothing here). -/
def processNestedOne (indent : Nat) : HNode → List String
  | .mk nm _ _ cs =>
      if nm == "ul" || nm == "ol" then
        let nc := String.intercalate "\n" (processLis (nm == "ol") (indent + 1) 0 cs)
        if nc == "" then [] else [nc]
      else []

end

/-- process_list_element (wiki.py lines 10-37): render a list element
recursively, joining the collected lines with newlines. -/
def process_list_element (l : HNode) (indent : Nat) : String :=
  String.intercalate "\n" (processLis (l.name == "ol") indent 0 l.children)

/-- Heading level of a tag name, defined for the heading names h1 to h6
requested from find_all (int(element.name[1])). -/
def headingLevel : String → Option Nat
  | "h1" => some 1
  | "h2" => some 2
  | "h3" => some 3
  | "h4" => some 4
  | "h5" => some 5
  | "h6" => some 6
  | _ => none

/-- The per-element body of the block extraction loop (wiki.py lines 157-175):
a heading emits a newline, the hash marks, a space and its stripped text when
non-empty; a paragraph emits its stripped text when non-empty (the regex
branch for placeholder paragraphs appends the same string as the general
branch); a ul or ol whose parent is not li, ul or ol emits its recursive list
rendering when non-empty; every other element emits nothing. -/
def blockOfElement (parent : String) (n : HNode) : List String :=
  match headingLevel n.name with
  | some lv =>
      let ht := pyStrip (getTextN n)
      if ht == "" then [] else ["\n" ++ repeatStr lv "#" ++ " " ++ ht]
  | none =>
      if n.name == "p" then
        let t := pyStrip (getTextN n)
        if t == "" then [] else [t]
      else if (n.name == "ul" || n.name == "ol") && !(["li", "ul", "ol"].contains parent) then
        let lc := process_list_element n 0
        if lc == "" then [] else [lc]
      else []

mutual

/-- Block extraction over a forest: find_all(["h1", ..., "p", "ul", "ol"])
returns all matching descendants in pre-order, and each is processed
independently with the parent check done against its own parent; the walk
therefore visits every element, emitting its block before the blocks of its
descendants.  The string argument is the tag name of the parent (the soup
document itself is named "[document]"). -/
def textContentL (parent : String) : List HNode → List String
  | [] => []
  | n :: ns => textContentN parent n ++ textContentL parent ns

/-- Block extraction at one element and its descendants. -/
def textContentN (parent : String) : HNode → List String
  | .mk nm cl t cs =>
      blockOfElement parent (.mk nm cl t cs) ++ textContentL nm cs

end

/-- Result of the extraction computed from a fetched document: the joined
prose, the tables_dict in insertion order, and the ids recorded in
table_placeholders during substitution. -/
structure ExtractResult where
  content : String
  tables : List (String × Grid)
  placeholders : List String

/-- The whole extraction pipeline of get_wiki_content after the fetch
(wiki.py lines 90-180): discover and id the tables, parse them into
tables_dict, replace parsed tables by placeholder paragraphs (infoboxes
first, then wikitables starting at len(infoboxes) + 1 on the already
rewritten document), remove decorations, extract blocks and join them with
blank lines. -/
def getWikiContentFromDoc (pt : HNode → Option Grid) (doc : List HNode) : ExtractResult :=
  let tablesDict := tablesDictOf pt doc
  let keys := tablesDict.map Prod.fst
  let infoboxCount := (findAllNodes isInfoboxTable doc).length
  let r1 := substL isInfoboxTable keys 1 doc
  let r2 := substL isWikitableTable keys (infoboxCount + 1) r1.2.2
  let cleaned := stripNodesL decorationNames r2.2.2
  let blocks := textContentL "[document]" cleaned
  { content := String.intercalate "\n\n" blocks
    tables := tablesDict
    placeholders := r1.2.1 ++ r2.2.1 }

/-- The response envelope of the wiki parse API as far as get_wiki_content
inspects it: the HTTP status code, the raw body text (used in the error
message), the error info field when the JSON carries an error object, and the
parsed markup under parse.text when the JSON carries a parse object. -/
structure WikiResponse where
  status_code : Nat
  text : String
  error : Option String
  parse : Option (List HNode)

/-- get_wiki_content (wiki.py lines 40-180) from the response on: a non-200
status raises, then a present error object raises, then a missing parse
object raises; otherwise the extraction runs on the fetched markup and the
pair of prose and tables is returned.  All three raise sites throw the same
exception class, modelled by the error message string. -/
def get_wiki_content (pt : HNode → Option Grid) (r : WikiResponse) :
    Except String (String × List (String × Grid)) :=
  if r.status_code ≠ 200 then
    .error ("api error: " ++ toString r.status_code ++ " - " ++ r.text)
  else
    match r.error with
    | some info => .error ("api error: " ++ info)
    | none =>
      match r.parse with
      | none => .error "api error: No parse data found"
      | some doc =>
          let res := getWikiContentFromDoc pt doc
          .ok (res.content, res.tables)

/-
Storage layer (db.py).  A ShelveDB names one shelve database inside a shared
directory.  The directory is modelled as an association list from backing
file name to shelf contents; shelve.open(path) reads the file of that name,
treating a missing file as an empty shelf it would create on demand.
-/

/-- Contents of one shelve file: key to stored grid, insertion ordered. -/
abbrev ShelfData := List (String × Grid)

/-- The storage directory: backing file name to shelf contents. -/
abbrev DirState := List (String × ShelfData)

/-- Read the shelf stored in a file, empty when the file does not exist. -/
def lookupFile (dir : DirState) (f : String) : ShelfData :=
  ((dir.find? (fun e => e.1 == f)).map Prod.snd).getD []

/-- Write a shelf back to its file, creating the file when absent. -/
def setFile (dir : DirState) (f : String) (s : ShelfData) : DirState :=
  (dir.filter (fun e => !(e.1 == f))) ++ [(f, s)]

/-- Store a value under a key in a shelf, overwriting a previous binding. -/
def shelfPut (s : ShelfData) (k : String) (v : Grid) : ShelfData :=
  (s.filter (fun e => !(e.1 == k))) ++ [(k, v)]

/-- db.get(key, None) on a shelf. -/
def shelfGet (s : ShelfData) (k : String) : Option Grid :=
  (s.find? (fun e => e.1 == k)).map Prod.snd

namespace ShelveDB

/-- The destructive part of ShelveDB.__init__ (db.py lines 15-21) with
init=True: every entry of the directory whose file name matches the glob
pattern db_name followed by star, i.e. whose name starts with db_name, is
removed (db_name is assumed free of glob metacharacters). -/
def init (db_name : String) (dir : DirState) : DirState :=
  dir.filter (fun e => !(strStartsWith db_name e.1))

/-- ShelveDB.save: open the shelve file of this database and store the value
under the key. -/
def save (db_name key : String) (v : Grid) (dir : DirState) : DirState :=
  setFile dir db_name (shelfPut (lookupFile dir db_name) key v)

/-- ShelveDB.fetch: db.get(key, None) on the shelve file of this database. -/
def fetch (db_name key : String) (dir : DirState) : Option Grid :=
  shelfGet (lookupFile dir db_name) key

/-- ShelveDB.delete: remove the key when present, reporting whether it was. -/
def delete (db_name key : String) (dir : DirState) : Bool × DirState :=
  let s := lookupFile dir db_name
  if (s.find? (fun e => e.1 == key)).isSome then
    (true, setFile dir db_name (s.filter (fun e => !(e.1 == key))))
  else
    (false, dir)

/-- ShelveDB.list_keys: the keys of the shelve file of this database. -/
def list_keys (db_name : String) (dir : DirState) : List String :=
  (lookupFile dir db_name).map Prod.fst

end ShelveDB

/-- The method names defined in the body of class ShelveDB (db.py lines 9-44)
besides the constructor: there is no method named clear. -/
def shelveDBMethodNames : List String :=
  ["from_table", "save", "fetch", "delete", "list_keys"]

/-- Attribute lookup of storage.clear as executed by WikiTool.forward: Python
raises AttributeError because class ShelveDB defines no such method; the ok
branch is unreachable and returns the directory untouched only so that the
definition is total. -/
def callStorageClear (dir : DirState) : Except String DirState :=
  if shelveDBMethodNames.contains "clear" then .ok dir
  else .error "AttributeError: ShelveDB object has no attribute clear"

/-- The persistence phase of WikiTool.forward (tools.py lines 117-122): call
self.storage.clear(), then save every extracted table under its key.  The
save loop only runs when the clear call returned. -/
def wikiToolForwardStore (tables : List (String × Grid)) (db_name : String)
    (dir : DirState) : Except String DirState :=
  match callStorageClear dir with
  | .error e => .error e
  | .ok d1 => .ok (tables.foldl (fun d kv => ShelveDB.save db_name kv.1 kv.2 d) d1)

/-
Concrete inputs used by the claim witnesses and counterexamples.
-/

/-- A list item element with plain text. -/
def liNode (s : String) : HNode :=
  .mk "li" [] s []

/-- A small parsed grid. -/
def demoGrid : Grid := [["h1c", "h2c"], ["a", "b"]]

/-- A second small parsed grid. -/
def demoGridB : Grid := [["z"]]

/-- Table parser that succeeds on every table with demoGrid. -/
def ptAll (_ : HNode) : Option Grid := some demoGrid

/-- Table parser that fails on every table. -/
def ptNone (_ : HNode) : Option Grid := none

/-- The synthetic markup of the end-to-end example: one heading, one
paragraph, one general table, one unordered list. -/
def demoDocEndToEnd : List HNode :=
  [ .mk "h1" [] "Title" [],
    .mk "p" [] "Some text." [],
    .mk "table" ["wikitable"] "" [],
    .mk "ul" [] "" [liNode "a", liNode "b"] ]

/-- A document with one infobox table and one wikitable. -/
def demoDocTwoTables : List HNode :=
  [ .mk "table" ["infobox", "vcard"] "" [],
    .mk "p" [] "Body." [],
    .mk "table" ["wikitable"] "" [] ]

/-- A document carrying decorations the source intends to remove: a heading
with a section-edit span inside it and a navigation box containing a list. -/
def demoDocDecorations : List HNode :=
  [ .mk "h2" [] "History" [.mk "span" ["mw-editsection"] "[edit]" []],
    .mk "div" ["navbox"] "" [.mk "ul" [] "" [liNode "Nav item"]] ]

/-- The nested-list example: an ordered list with item1 and item2, item2
holding an unordered nested list with suba and subb. -/
def demoNestedList : HNode :=
  .mk "ol" [] ""
    [ liNode "item1",
      .mk "li" [] "item2" [.mk "ul" [] "" [liNode "suba", liNode "subb"]] ]

/-- Document part before the unparsed table of the leak example. -/
def demoLeakPre : List HNode :=
  [.mk "p" [] "Intro" []]

/-- Blocks nested inside the unparsed table of the leak example. -/
def demoLeakInner : List HNode :=
  [ .mk "h2" [] "Inside" [],
    .mk "p" [] "Inner text." [],
    .mk "ul" [] "" [liNode "x", liNode "y"] ]

/-- Document part after the unparsed table of the leak example. -/
def demoLeakPost : List HNode :=
  [.mk "p" [] "Outro" []]

/-- A wikitable (whose grid will fail to parse) carrying a nested paragraph,
to be placed inside an infobox. -/
def demoNestedWikitable : HNode :=
  .mk "table" ["wikitable"] "" [.mk "p" [] "Secret" []]

/-- A document whose infobox table contains the failing wikitable, followed
by a paragraph. -/
def demoDocNestedTables : List HNode :=
  [ .mk "table" ["infobox"] "" [demoNestedWikitable],
    .mk "p" [] "After" [] ]

/-- Table parser of the mixed run: wikitable-classed tables fail to parse,
every other table (here the infobox) parses. -/
def mixedPt (n : HNode) : Option Grid :=
  if isWikitableTable n then none else some demoGrid

/-- Response failing the transport status check. -/
def respFetchFail : WikiResponse :=
  { status_code := 404, text := "x", error := none, parse := none }

/-- Response failing the error-object check with an error info crafted to
collide with the status failure message. -/
def respNotFound : WikiResponse :=
  { status_code := 200, text := "", error := some "404 - x", parse := none }

/-- Response failing the missing-parse check. -/
def respNoParse : WikiResponse :=
  { status_code := 200, text := "", error := none, parse := none }

/-- A successful response around the end-to-end document. -/
def respOk : WikiResponse :=
  { status_code := 200, text := "", error := none, parse := some demoDocEndToEnd }

/-- Directory holding two databases whose names share a prefix. -/
def demoDirSibling : DirState :=
  [("t", [("k", demoGrid)]), ("t2", [("k", demoGridB)])]

/-- Directory for the clear-and-replace example: the wiki table previously
holding table_1 and table_5. -/
def demoDirWiki : DirState :=
  [("wiki", [("table_1", demoGrid), ("table_5", demoGridB)])]

/-
Helper lemmas.
-/

/-- Keys produced by assignIds counting from k: position i holds
f"table_{k + i}". -/
theorem assignIds_names (ts : List HNode) : ∀ (k i : Nat), i < ts.length →
    ((assignIds k ts).map Prod.fst)[i]? = some (tableName (k + i)) := by
  induction ts with
  | nil => intro k i h; simp at h
  | cons t ts ih =>
      intro k i h
      cases i with
      | zero => simp [assignIds]
      | succ i =>
          have h2 : i < ts.length := by simpa using h
          have harith : k + 1 + i = k + (i + 1) := by omega
          have := ih (k + 1) i h2
          rw [harith] at this
          simpa [assignIds] using this

/-- The keys of a filterMap through an Option-valued parser are the keys of
the entries on which the parser succeeds. -/
theorem map_fst_filterMap (pt : HNode → Option Grid) (l : List (String × HNode)) :
    (l.filterMap (fun e => (pt e.2).map (fun g => (e.1, g)))).map Prod.fst =
      (l.filter (fun e => (pt e.2).isSome)).map Prod.fst := by
  induction l with
  | nil => rfl
  | cons e l ih =>
      cases hpe : pt e.2 with
      | none => simp [List.filterMap_cons, List.filter_cons, hpe, ih]
      | some g => simp [List.filterMap_cons, List.filter_cons, hpe, ih]

/-
Claim theorems.
-/

/-- C1: the caller-facing clear-and-replace step of WikiTool.forward never
reaches the delete or the puts: its first statement calls a method named
clear that class ShelveDB does not define, so every run fails with
AttributeError and the store is left untouched instead of containing exactly
the extracted mapping. -/
theorem wiki_tool_forward_always_raises (tables : List (String × Grid))
    (db_name : String) (dir : DirState) :
    wikiToolForwardStore tables db_name dir =
      .error "AttributeError: ShelveDB object has no attribute clear" := rfl

/-- C2: placeholder ids are assigned sequentially from 1 over the infobox
tables in document order followed by the wikitables in document order, so the
i-th infobox table gets f"table_{i+1}", the j-th wikitable gets
f"table_{count_infobox + j + 1}", and every infobox number is strictly below
every wikitable number. -/
theorem info_numbers_below_general (doc : List HNode) (i j : Nat)
    (hi : i < (findAllNodes isInfoboxTable doc).length)
    (hj : j < (findAllNodes isWikitableTable doc).length) :
    ((tableIds doc).map Prod.fst)[i]? = some (tableName (i + 1)) ∧
    ((tableIds doc).map Prod.fst)[(findAllNodes isInfoboxTable doc).length + j]? =
      some (tableName ((findAllNodes isInfoboxTable doc).length + j + 1)) ∧
    i + 1 < (findAllNodes isInfoboxTable doc).length + j + 1 := by
  unfold tableIds
  have hlen : (findAllNodes isInfoboxTable doc ++ findAllNodes isWikitableTable doc).length =
      (findAllNodes isInfoboxTable doc).length + (findAllNodes isWikitableTable doc).length :=
    List.length_append _ _
  refine ⟨?_, ?_, by omega⟩
  · have := assignIds_names (findAllNodes isInfoboxTable doc ++ findAllNodes isWikitableTable doc)
      1 i (by omega)
    simpa [Nat.add_comm] using this
  · have := assignIds_names (findAllNodes isInfoboxTable doc ++ findAllNodes isWikitableTable doc)
      1 ((findAllNodes isInfoboxTable doc).length + j) (by omega)
    have harith : 1 + ((findAllNodes isInfoboxTable doc).length + j) =
        (findAllNodes isInfoboxTable doc).length + j + 1 := by omega
    rw [harith] at this
    exact this

/-- Witness for C2 on a document holding one infobox table and one
wikitable. -/
theorem info_numbers_below_general_witness :
    0 < (findAllNodes isInfoboxTable demoDocTwoTables).length ∧
    0 < (findAllNodes isWikitableTable demoDocTwoTables).length ∧
    (((tableIds demoDocTwoTables).map Prod.fst)[0]? = some (tableName (0 + 1)) ∧
     ((tableIds demoDocTwoTables).map Prod.fst)[(findAllNodes isInfoboxTable demoDocTwoTables).length + 0]? =
       some (tableName ((findAllNodes isInfoboxTable demoDocTwoTables).length + 0 + 1)) ∧
     0 + 1 < (findAllNodes isInfoboxTable demoDocTwoTables).length + 0 + 1) :=
  ⟨by decide, by decide,
    info_numbers_below_general demoDocTwoTables 0 0 (by decide) (by decide)⟩

/-- C3 counterexample: on the synthetic document with one heading, one
paragraph, one general table and one unordered list, the extracted prose is
not the claimed string, because the heading block carries a leading newline
before the hash marks. -/
theorem end_to_end_prose_counterexample :
    (getWikiContentFromDoc ptAll demoDocEndToEnd).content ≠
      "# Title\n\nSome text.\n\n" ++ placeholderOf "table_1" ++ "\n\n* a\n* b" := by
  decide

/-- C3 amended: the extraction returns the prose with the heading rendered as
a newline, the hash marks, a space and the text (all other blocks as
claimed, joined by one blank line), and the tables mapping holding exactly
table_1. -/
theorem end_to_end_extraction_amended :
    (getWikiContentFromDoc ptAll demoDocEndToEnd).content =
      "\n# Title\n\nSome text.\n\n" ++ placeholderOf "table_1" ++ "\n\n* a\n* b" ∧
    (getWikiContentFromDoc ptAll demoDocEndToEnd).tables = [("table_1", demoGrid)] :=
  ⟨by decide, by decide⟩

/-- C4: decoration removal passes the selector strings as tag names to
find_all, so only sup elements are ever removed; a section-edit span inside a
heading and a navigation box containing a list both leak their text into the
prose, while a footnote sup marker is indeed removed. -/
theorem decoration_text_reaches_prose :
    (getWikiContentFromDoc ptNone demoDocDecorations).content =
      "\n## History[edit]\n\n* Nav item" ∧
    (getWikiContentFromDoc ptNone
        [HNode.mk "p" [] "Note" [HNode.mk "sup" [] "[1]" []]]).content = "Note" ∧
    decorationNames.contains "div" = false ∧
    decorationNames.contains "span" = false :=
  ⟨by decide, by decide, by decide, by decide⟩

/-- C5 counterexample: two responses failing two different checks (transport
status 404 with body "x" versus status 200 with a source error payload whose
info is "404 - x") produce identical failures, so the three failure kinds are
not distinguishable by the caller: every raise site throws the same exception
class and only the message differs, and the messages can coincide. -/
theorem error_kinds_collide :
    get_wiki_content ptNone respFetchFail = get_wiki_content ptNone respNotFound ∧
    respFetchFail.status_code ≠ 200 ∧
    respNotFound.status_code = 200 ∧ respNotFound.error = some "404 - x" :=
  ⟨by rfl, by decide, rfl, rfl⟩

/-- C5 amended: each of the three failure conditions (non-success status,
source-reported error payload, missing parse structure) aborts the call with
an error carrying its condition-specific message, checked in that order, and
a successful value is returned only when all three checks pass, in which case
it is the full extraction of the fetched markup (never a partial result). -/
theorem error_conditions_abort (pt : HNode → Option Grid) (r : WikiResponse) :
    (r.status_code ≠ 200 →
      get_wiki_content pt r =
        .error ("api error: " ++ toString r.status_code ++ " - " ++ r.text)) ∧
    (r.status_code = 200 → ∀ info, r.error = some info →
      get_wiki_content pt r = .error ("api error: " ++ info)) ∧
    (r.status_code = 200 → r.error = none → r.parse = none →
      get_wiki_content pt r = .error "api error: No parse data found") ∧
    (∀ res, get_wiki_content pt r = .ok res →
      r.status_code = 200 ∧ r.error = none ∧
        ∃ doc, r.parse = some doc ∧
          res = ((getWikiContentFromDoc pt doc).content,
                 (getWikiContentFromDoc pt doc).tables)) := by
  refine ⟨?_, ?_, ?_, ?_⟩
  · intro h
    unfold get_wiki_content
    rw [if_pos h]
  · intro h info he
    unfold get_wiki_content
    rw [if_neg (by simp [h]), he]
  · intro h he hp
    unfold get_wiki_content
    rw [if_neg (by simp [h]), he, hp]
  · intro res hres
    unfold get_wiki_content at hres
    by_cases h : r.status_code = 200
    · rw [if_neg (by simp [h])] at hres
      cases herr : r.error with
      | some info => rw [herr] at hres; exact absurd hres (by simp)
      | none =>
          rw [herr] at hres
          cases hp : r.parse with
          | none => rw [hp] at hres; exact absurd hres (by simp)
          | some doc =>
              rw [hp] at hres
              simp only [Except.ok.injEq] at hres
              exact ⟨h, rfl, doc, rfl, hres.symm⟩
    · rw [if_pos h] at hres; exact absurd hres (by simp)

/-- Witness for C5 amended at the three concrete failing responses. -/
theorem error_conditions_abort_witness :
    (respFetchFail.status_code ≠ 200 ∧
      get_wiki_content ptNone respFetchFail =
        .error ("api error: " ++ toString respFetchFail.status_code ++ " - " ++ respFetchFail.text)) ∧
    (respNotFound.status_code = 200 ∧ respNotFound.error = some "404 - x" ∧
      get_wiki_content ptNone respNotFound = .error ("api error: " ++ "404 - x")) ∧
    (respNoParse.status_code = 200 ∧ respNoParse.error = none ∧ respNoParse.parse = none ∧
      get_wiki_content ptNone respNoParse = .error "api error: No parse data found") :=
  ⟨⟨by decide, (error_conditions_abort ptNone respFetchFail).1 (by decide)⟩,
   ⟨rfl, rfl, (error_conditions_abort ptNone respNotFound).2.1 rfl "404 - x" rfl⟩,
   ⟨rfl, rfl, rfl, (error_conditions_abort ptNone respNoParse).2.2.1 rfl rfl rfl⟩⟩

/-- C9: the extraction result depends only on the fetched markup: two
successful responses carrying the same parsed document yield identical prose
and identical table mappings, whatever their other fields are; the pipeline
from markup to (prose, tables) is deterministic. -/
theorem extraction_depends_only_on_markup (pt : HNode → Option Grid) (doc : List HNode)
    (r1 r2 : WikiResponse)
    (h1 : r1.status_code = 200) (h2 : r2.status_code = 200)
    (h3 : r1.error = none) (h4 : r2.error = none)
    (h5 : r1.parse = some doc) (h6 : r2.parse = some doc) :
    get_wiki_content pt r1 = get_wiki_content pt r2 := by
  unfold get_wiki_content
  rw [h1, h2, h3, h4, h5, h6]
  simp

/-- Witness for C9 at the successful demo response. -/
theorem extraction_depends_only_on_markup_witness :
    respOk.status_code = 200 ∧ respOk.error = none ∧
    respOk.parse = some demoDocEndToEnd ∧
    get_wiki_content ptAll respOk = get_wiki_content ptAll respOk :=
  ⟨rfl, rfl, rfl,
    extraction_depends_only_on_markup ptAll demoDocEndToEnd respOk respOk
      rfl rfl rfl rfl rfl rfl⟩

/-- Ids recorded by the placeholder loop for detached entries are all keys of
tables_dict: the record is guarded by the membership test. -/
theorem detachedIds_mem (keys : List String) : ∀ (k m : Nat) (id : String),
    id ∈ detachedIds keys k m → keys.contains id = true
  | k, 0, id => by simp [detachedIds]
  | k, m + 1, id => by
      intro hid
      rw [detachedIds] at hid
      rcases List.mem_append.mp hid with h | h
      · by_cases hc : keys.contains (tableName k) = true
        · rw [if_pos hc] at h
          rcases List.mem_singleton.mp h with rfl
          exact hc
        · rw [if_neg hc] at h
          exact absurd h (List.not_mem_nil id)
      · exact detachedIds_mem keys (k + 1) m id h

mutual

/-- Every id recorded by the substitution walk over a forest is a key of
tables_dict. -/
theorem substL_mem (p : HNode → Bool) (keys : List String) :
    ∀ (k : Nat) (ns : List HNode) (id : String),
      id ∈ (substL p keys k ns).2.1 → keys.contains id = true
  | k, [], id => by simp [substL]
  | k, n :: ns, id => by
      intro hid
      rw [substL] at hid
      rcases List.mem_append.mp hid with h | h
      · exact substN_mem p keys k n id h
      · exact substL_mem p keys (substN p keys k n).1 ns id h

/-- Every id recorded by the substitution walk at one element is a key of
tables_dict. -/
theorem substN_mem (p : HNode → Bool) (keys : List String) :
    ∀ (k : Nat) (n : HNode) (id : String),
      id ∈ (substN p keys k n).2.1 → keys.contains id = true
  | k, .mk nm cl t cs, id => by
      intro hid
      rw [substN] at hid
      by_cases hp : p (.mk nm cl t cs) = true
      · rw [if_pos hp] at hid
        by_cases hk : keys.contains (tableName k) = true
        · rw [if_pos hk] at hid
          rcases List.mem_cons.mp hid with rfl | h
          · exact hk
          · exact detachedIds_mem keys (k + 1) _ id h
        · rw [if_neg hk] at hid
          exact substL_mem p keys (k + 1) cs id hid
      · rw [if_neg hp] at hid
        exact substL_mem p keys k cs id hid

end

/-- C6: every placeholder the substitution step records (and hence every
placeholder paragraph it inserts into the working document) has a matching
key in the returned tables mapping, so the prose carries no dangling table
reference; moreover the keys of the returned mapping are exactly the
position-based ids of the tables whose parse succeeded, so a failed table is
omitted while still consuming its numbering position and later tables keep
their ids. -/
theorem no_dangling_placeholder (pt : HNode → Option Grid) (doc : List HNode)
    (id : String)
    (hid : id ∈ (getWikiContentFromDoc pt doc).placeholders) :
    id ∈ (getWikiContentFromDoc pt doc).tables.map Prod.fst ∧
    (getWikiContentFromDoc pt doc).tables.map Prod.fst =
      ((tableIds doc).filter (fun e => (pt e.2).isSome)).map Prod.fst := by
  constructor
  · have hid2 : id ∈
        (substL isInfoboxTable ((tablesDictOf pt doc).map Prod.fst) 1 doc).2.1 ++
        (substL isWikitableTable ((tablesDictOf pt doc).map Prod.fst)
          ((findAllNodes isInfoboxTable doc).length + 1)
          (substL isInfoboxTable ((tablesDictOf pt doc).map Prod.fst) 1 doc).2.2).2.1 := hid
    have hcontains : ((tablesDictOf pt doc).map Prod.fst).contains id = true := by
      rcases List.mem_append.mp hid2 with h | h
      · exact substL_mem _ _ _ _ _ h
      · exact substL_mem _ _ _ _ _ h
    simpa using hcontains
  · exact map_fst_filterMap pt (tableIds doc)

/-- Witness for C6 at the end-to-end document, whose single placeholder is
table_1. -/
theorem no_dangling_placeholder_witness :
    "table_1" ∈ (getWikiContentFromDoc ptAll demoDocEndToEnd).placeholders ∧
    ("table_1" ∈ (getWikiContentFromDoc ptAll demoDocEndToEnd).tables.map Prod.fst ∧
     (getWikiContentFromDoc ptAll demoDocEndToEnd).tables.map Prod.fst =
       ((tableIds demoDocEndToEnd).filter (fun e => (ptAll e.2).isSome)).map Prod.fst) :=
  ⟨by decide, no_dangling_placeholder ptAll demoDocEndToEnd "table_1" (by decide)⟩

/-- Finding a key among entries kept by a filter that keeps every entry of
that key is the same as finding it among all entries. -/
theorem find?_filter_of_keep {α : Type} (key : String) (P : String × α → Bool)
    (l : List (String × α)) (hP : ∀ e : String × α, e.1 = key → P e = true) :
    (l.filter P).find? (fun e => e.1 == key) = l.find? (fun e => e.1 == key) := by
  induction l with
  | nil => rfl
  | cons e l ih =>
      by_cases he : (e.1 == key) = true
      · have hkey : e.1 = key := by simpa using he
        rw [List.filter_cons, if_pos (hP e hkey)]
        rw [List.find?_cons, List.find?_cons, he]
      · have hne : (e.1 == key) = false := by simpa using he
        by_cases hPe : P e = true
        · rw [List.filter_cons, if_pos hPe, List.find?_cons, List.find?_cons, hne]
          exact ih
        · rw [List.filter_cons, if_neg hPe, List.find?_cons, hne]
          exact ih

/-- A find? over a filter whose kept entries never satisfy the search
predicate returns nothing. -/
theorem find?_filter_none {α : Type} (p P : α → Bool) (l : List α)
    (h : ∀ e, P e = true → p e = false) :
    (l.filter P).find? p = none := by
  induction l with
  | nil => rfl
  | cons e l ih =>
      by_cases hPe : P e = true
      · rw [List.filter_cons, if_pos hPe, List.find?_cons, h e hPe]
        exact ih
      · rw [List.filter_cons, if_neg hPe]
        exact ih

/-- Every string starts with itself, so the glob of a database name matches
its own backing file. -/
theorem strStartsWith_self (a : String) : strStartsWith a a = true := by
  unfold strStartsWith
  exact List.isPrefixOf_iff_prefix.mpr (List.prefix_refl _)

/-- C8 counterexample: destructively opening table "t" also deletes the
entries of the distinct table "t2", because the glob pattern is the database
name followed by a star and "t2" starts with "t"; the claim says the entries
of every other table are left unchanged. -/
theorem destructive_init_deletes_sibling_table :
    ShelveDB.fetch "t2" "k" demoDirSibling = some demoGridB ∧
    ShelveDB.fetch "t2" "k" (ShelveDB.init "t" demoDirSibling) = none :=
  ⟨by decide, by decide⟩

/-- C8 amended: destructive initialisation of table a deletes exactly the
backing files whose names match the glob a followed by star: afterwards every
fetch from a finds nothing, and the entries of any table b whose name does
not start with a are unchanged (a table whose name extends a, such as t and
t2, is deleted along with it). -/
theorem destructive_init_frame (a b : String) (dir : DirState)
    (hb : strStartsWith a b = false) :
    lookupFile (ShelveDB.init a dir) b = lookupFile dir b ∧
    ∀ k, ShelveDB.fetch a k (ShelveDB.init a dir) = none := by
  constructor
  · unfold lookupFile ShelveDB.init
    rw [find?_filter_of_keep b _ dir]
    intro e he
    simp [he, hb]
  · intro k
    unfold ShelveDB.fetch shelfGet lookupFile ShelveDB.init
    rw [find?_filter_none]
    · rfl
    · intro e hPe
      by_cases hea : (e.1 == a) = true
      · have hhea : e.1 = a := by simpa using hea
        rw [hhea, strStartsWith_self a] at hPe
        simp at hPe
      · simpa using hea

/-- Witness for C8 amended: opening "alpha" destructively leaves the
"beta"-named files of the directory alone and empties "alpha". -/
theorem destructive_init_frame_witness :
    strStartsWith "alpha" "beta" = false ∧
    (lookupFile (ShelveDB.init "alpha" demoDirSibling) "beta" =
       lookupFile demoDirSibling "beta" ∧
     ∀ k, ShelveDB.fetch "alpha" k (ShelveDB.init "alpha" demoDirSibling) = none) :=
  ⟨by decide, destructive_init_frame "alpha" "beta" demoDirSibling (by decide)⟩

/-- The nested-list loop of process_list_element is the fold over the
directly nested ul and ol children of an item: each is rendered at the next
indent and kept when non-empty. -/
theorem processNestedLists_eq (indent : Nat) (cs : List HNode) :
    processNestedLists indent cs =
      (cs.filter (fun c => c.name == "ul" || c.name == "ol")).flatMap (fun nl =>
        if process_list_element nl (indent + 1) == "" then []
        else [process_list_element nl (indent + 1)]) := by
  induction cs with
  | nil => rfl
  | cons c cs ih =>
      cases c with
      | mk nm cl t ccs =>
          by_cases h : (nm == "ul" || nm == "ol") = true
          · simp only [processNestedLists, processNestedOne, List.filter_cons, HNode.name, h,
              List.flatMap_cons, if_true, ite_true]
            rw [ih]
            rfl
          · have hb : (nm == "ul" || nm == "ol") = false := by simpa using h
            simp only [processNestedLists, processNestedOne, List.filter_cons, HNode.name, hb,
              Bool.false_eq_true, if_false, ite_false, List.nil_append]
            exact ih

/-- The li loop of process_list_element starting at enumerate index i emits,
for the j-th li child, its own line (prefix from the running index, number
i + j + 1 for an ordered list, a star otherwise) when its own text is
non-empty, followed by its directly nested lists rendered one level deeper. -/
theorem processLis_eq (ordered : Bool) (indent : Nat) (ns : List HNode) : ∀ i : Nat,
    processLis ordered indent i ns =
      (List.enumFrom i (ns.filter (fun c => c.name == "li"))).flatMap (fun pr =>
        (if liOwnText pr.2 == "" then []
         else [repeatStr indent "  " ++
           (if ordered then toString (pr.1 + 1) ++ ". " else "* ") ++ liOwnText pr.2]) ++
        processNestedLists indent pr.2.children) := by
  induction ns with
  | nil => intro i; rfl
  | cons n ns ih =>
      intro i
      cases n with
      | mk nm cl t cs =>
          by_cases h : (nm == "li") = true
          · simp only [processLis, processLi, List.filter_cons, HNode.name, HNode.children, h,
              List.enumFrom_cons, List.flatMap_cons, if_true, ite_true]
            rw [ih (i + 1)]
            simp only [List.append_assoc]
            rfl
          · have hb : (nm == "li") = false := by simpa using h
            simp only [processLis, processLi, List.filter_cons, HNode.name, hb,
              Bool.false_eq_true, if_false, ite_false, List.nil_append]
            exact ih i

/-- C7: recursive list rendering joins with newlines, over the li items in
order, each item contributing its own text as a line prefixed by two spaces
per nesting depth and either the 1-based item number followed by a dot (for
an ordered list, the number restarting at 1 per list and incrementing per li
sibling) or a star (unordered), followed by each directly nested list
rendered at depth + 1 when non-empty; in particular the ordered demo list
with a nested unordered list renders exactly as claimed. -/
theorem list_rendering_characterization :
    (∀ (l : HNode) (d : Nat),
      process_list_element l d =
        String.intercalate "\n"
          ((List.enum (l.children.filter (fun c => c.name == "li"))).flatMap (fun pr =>
            (if liOwnText pr.2 == "" then []
             else [repeatStr d "  " ++
               (if l.name == "ol" then toString (pr.1 + 1) ++ ". " else "* ") ++
               liOwnText pr.2]) ++
            (pr.2.children.filter (fun c => c.name == "ul" || c.name == "ol")).flatMap (fun nl =>
              if process_list_element nl (d + 1) == "" then []
              else [process_list_element nl (d + 1)])))) ∧
    process_list_element demoNestedList 0 = "1. item1\n2. item2\n  * suba\n  * subb" := by
  constructor
  · intro l d
    cases l with
    | mk nm cl t cs =>
        rw [process_list_element, processLis_eq]
        simp only [processNestedLists_eq, HNode.name, HNode.children, List.enum]
  · decide

mutual

/-- Substitution with an empty tables_dict records no placeholder and leaves
a forest unchanged; in particular a table whose parse failed (and every
other element) stays in the working document. -/
theorem substL_no_keys (p : HNode → Bool) : ∀ (k : Nat) (ns : List HNode),
    (substL p [] k ns).2.1 = [] ∧ (substL p [] k ns).2.2 = ns
  | k, [] => by simp [substL]
  | k, n :: ns => by
      have h1 := substN_no_keys p k n
      have h2 := substL_no_keys p (substN p [] k n).1 ns
      rw [substL]
      simp only [h1.1, h1.2, h2.1, h2.2, List.nil_append, List.singleton_append, and_self]

/-- Substitution with an empty tables_dict leaves one element unchanged. -/
theorem substN_no_keys (p : HNode → Bool) : ∀ (k : Nat) (n : HNode),
    (substN p [] k n).2.1 = [] ∧ (substN p [] k n).2.2 = [n]
  | k, .mk nm cl t cs => by
      have h := substL_no_keys p (k + 1) cs
      have h2 := substL_no_keys p k cs
      rw [substN]
      by_cases hp : p (.mk nm cl t cs) = true
      · rw [if_pos hp, if_neg (by simp)]
        simp only [h.1, h.2, and_self]
      · rw [if_neg hp]
        simp only [h2.1, h2.2, and_self]

end

/-- Decoration removal distributes over concatenation of forests. -/
theorem stripNodesL_append (bad : List String) (xs ys : List HNode) :
    stripNodesL bad (xs ++ ys) = stripNodesL bad xs ++ stripNodesL bad ys := by
  induction xs with
  | nil => rfl
  | cons n ns ih =>
      rw [List.cons_append, stripNodesL, stripNodesL, ih, List.append_assoc]

/-- Block extraction distributes over concatenation of sibling forests. -/
theorem textContentL_append (parent : String) (xs ys : List HNode) :
    textContentL parent (xs ++ ys) =
      textContentL parent xs ++ textContentL parent ys := by
  induction xs with
  | nil => rfl
  | cons n ns ih =>
      rw [List.cons_append, textContentL, textContentL, ih, List.append_assoc]

/-- When every table parse fails, tables_dict is empty. -/
theorem tablesDictOf_none (pt : HNode → Option Grid) (hpt : ∀ n, pt n = none)
    (doc : List HNode) : tablesDictOf pt doc = [] := by
  unfold tablesDictOf
  apply List.filterMap_eq_nil_iff.mpr
  intro e he
  simp [hpt e.2]

/-- When every table parse fails, the extraction returns no tables, inserts
no placeholder, and its prose is the block extraction of the
decoration-stripped original document. -/
theorem getWikiContentFromDoc_no_tables (pt : HNode → Option Grid)
    (hpt : ∀ n, pt n = none) (doc : List HNode) :
    (getWikiContentFromDoc pt doc).content =
      String.intercalate "\n\n" (textContentL "[document]" (stripNodesL decorationNames doc)) ∧
    (getWikiContentFromDoc pt doc).tables = [] := by
  have hdict := tablesDictOf_none pt hpt doc
  constructor
  · show String.intercalate "\n\n" (textContentL "[document]" (stripNodesL decorationNames
      (substL isWikitableTable ((tablesDictOf pt doc).map Prod.fst)
        ((findAllNodes isInfoboxTable doc).length + 1)
        (substL isInfoboxTable ((tablesDictOf pt doc).map Prod.fst) 1 doc).2.2).2.2)) = _
    rw [hdict]
    rw [List.map_nil]
    rw [(substL_no_keys isInfoboxTable 1 doc).2]
    rw [(substL_no_keys isWikitableTable ((findAllNodes isInfoboxTable doc).length + 1) doc).2]
  · show tablesDictOf pt doc = []
    exact hdict

/-- A table element emits no block of its own. -/
theorem blockOfElement_table (parent : String) (cl : List String) (t : String)
    (cs : List HNode) : blockOfElement parent (.mk "table" cl t cs) = [] := rfl

/-- Block extraction around a table element still present in the stripped
document: the table itself emits nothing, and the blocks of the elements
nested inside it are emitted in place, between the blocks of the
surroundings. -/
theorem textContent_around_table (pre post cs : List HNode) (cl : List String) (t : String) :
    textContentL "[document]" (stripNodesL decorationNames (pre ++ HNode.mk "table" cl t cs :: post)) =
      textContentL "[document]" (stripNodesL decorationNames pre) ++
      (textContentL "table" (stripNodesL decorationNames cs) ++
       textContentL "[document]" (stripNodesL decorationNames post)) := by
  rw [stripNodesL_append, textContentL_append]
  congr 1

/-- C10 counterexample: in a mixed run the claim fails.  The document holds
an infobox whose grid parses and, nested inside it, a wikitable whose grid
fails to parse; the wikitable is discovered (its parse is attempted and
fails), yet replacing the infobox by its placeholder detaches the wikitable
together with its nested paragraph "Secret", so that paragraph is dropped
from the prose instead of being emitted: the whole prose is the infobox
placeholder followed by the paragraph "After", and the text "Secret" does
not occur in it. -/
theorem nested_failed_table_content_dropped :
    isWikitableTable demoNestedWikitable = true ∧
    mixedPt demoNestedWikitable = none ∧
    (tableIds demoDocNestedTables).map Prod.fst = ["table_1", "table_2"] ∧
    (getWikiContentFromDoc mixedPt demoDocNestedTables).content =
      placeholderOf "table_1" ++ "\n\nAfter" ∧
    strContainsSub "Secret" (getWikiContentFromDoc mixedPt demoDocNestedTables).content =
      false ∧
    (getWikiContentFromDoc mixedPt demoDocNestedTables).tables = [("table_1", demoGrid)] :=
  ⟨by decide, by decide, by decide, by decide, by decide, by decide⟩

/-- C10 amended: in a run where no table parses successfully (so the
substitution step finds no key and inserts no placeholder anywhere), a
discovered table whose grid fails to parse is not replaced and remains in
the working document, and the headings, paragraphs and lists nested inside
it are emitted as ordinary blocks of the prose, in place between the blocks
of the surrounding document, with the tables mapping empty; by contrast a
failed table nested inside a successfully parsed table is detached when the
enclosing table is replaced, and its nested content is dropped from the
prose (see the counterexample). -/
theorem unparsed_table_content_leaks (pt : HNode → Option Grid) (hpt : ∀ n, pt n = none)
    (pre post cs : List HNode) (cl : List String) (t : String) :
    (getWikiContentFromDoc pt (pre ++ HNode.mk "table" cl t cs :: post)).content =
      String.intercalate "\n\n"
        (textContentL "[document]" (stripNodesL decorationNames pre) ++
         (textContentL "table" (stripNodesL decorationNames cs) ++
          textContentL "[document]" (stripNodesL decorationNames post))) ∧
    (getWikiContentFromDoc pt (pre ++ HNode.mk "table" cl t cs :: post)).tables = [] := by
  have h := getWikiContentFromDoc_no_tables pt hpt (pre ++ HNode.mk "table" cl t cs :: post)
  refine ⟨?_, h.2⟩
  rw [h.1, textContent_around_table]

/-- Witness for C10: an unparsed wikitable wrapping a heading, a paragraph
and a list between two paragraphs; the inner blocks appear in the prose. -/
theorem unparsed_table_content_leaks_witness :
    (∀ n, ptNone n = none) ∧
    ((getWikiContentFromDoc ptNone
        (demoLeakPre ++ HNode.mk "table" ["wikitable"] "" demoLeakInner :: demoLeakPost)).content =
      String.intercalate "\n\n"
        (textContentL "[document]" (stripNodesL decorationNames demoLeakPre) ++
         (textContentL "table" (stripNodesL decorationNames demoLeakInner) ++
          textContentL "[document]" (stripNodesL decorationNames demoLeakPost))) ∧
     (getWikiContentFromDoc ptNone
        (demoLeakPre ++ HNode.mk "table" ["wikitable"] "" demoLeakInner :: demoLeakPost)).tables = []) ∧
    (getWikiContentFromDoc ptNone
        (demoLeakPre ++ HNode.mk "table" ["wikitable"] "" demoLeakInner :: demoLeakPost)).content =
      "Intro\n\n\n## Inside\n\nInner text.\n\n* x\n* y\n\nOutro" :=
  ⟨fun _ => rfl,
   unparsed_table_content_leaks ptNone (fun _ => rfl) demoLeakPre demoLeakPost demoLeakInner
     ["wikitable"] "",
   by decide⟩
